import Mathlib

/-!
Verification development for the SMSFraudDetection repository.

The development shallowly embeds the TypeScript pipeline code:
  - `lib/utils-local.ts` (`clamp01`, `safeJson`),
  - `lib/types.ts` (the result data model),
  - `app/api/analyze/route.ts` (`detectAndTranslate`, `callMLService`,
    `toAgentResult`, the `POST` handler),
  - `app/api/feedback/route.ts` (the feedback `POST` handler).

JavaScript numbers are modelled as rationals (`ℚ`); where the source checks
`Number.isNaN`, the argument is an `Option ℚ` whose `none` models `NaN`.
Fields of dynamically-typed parsed JSON that may be absent at runtime are
modelled as `Option` fields.  External calls (`fetch`, `generateText`) are
modelled by their settled outcomes, passed in as explicit arguments: an
`Except Unit` value whose `error` constructor models a thrown/rejected
promise that the source does not catch at that point.
-/

namespace SMSFraud

/-! ## lib/utils-local.ts -/

/-- JavaScript `Math.min` on two (non-NaN) numbers. -/
def jsMin (a b : ℚ) : ℚ := if a ≤ b then a else b

/-- JavaScript `Math.max` on two (non-NaN) numbers. -/
def jsMax (a b : ℚ) : ℚ := if a ≤ b then b else a

/-- Embeds `clamp01` from `lib/utils-local.ts`:
`Math.max(0, Math.min(1, n))`.  `none` models a `NaN` argument (the
`Number.isNaN(n)` branch returns `0`). -/
def clamp01 (n : Option ℚ) : ℚ :=
  match n with
  | none => 0
  | some q => jsMax 0 (jsMin 1 q)

/-- JSON values as produced by JavaScript `JSON.parse` (numbers as exact
rationals; object fields kept in textual order). -/
inductive JVal where
  | null
  | bool (b : Bool)
  | num (q : ℚ)
  | str (s : String)
  | arr (elems : List JVal)
  | obj (fields : List (String × JVal))

/-- The backtick character (written via its code point). -/
def btick : Char := Char.ofNat 96

/-- JSON whitespace characters accepted by `JSON.parse`. -/
def isJsonWs (c : Char) : Bool :=
  c = ' ' || c = '\t' || c = '\n' || c = '\r'

/-- Drop leading JSON whitespace. -/
def skipWs : List Char → List Char
  | [] => []
  | c :: cs => if isJsonWs c then skipWs cs else c :: cs

/-- Value of a hexadecimal digit. -/
def hexVal (c : Char) : Option Nat :=
  if '0' ≤ c ∧ c ≤ '9' then some (c.toNat - 48)
  else if 'a' ≤ c ∧ c ≤ 'f' then some (c.toNat - 97 + 10)
  else if 'A' ≤ c ∧ c ≤ 'F' then some (c.toNat - 65 + 10)
  else none

/-- Single-character JSON string escapes. -/
def escChar : Char → Option Char
  | '"' => some '"'
  | '\\' => some '\\'
  | '/' => some '/'
  | 'b' => some (Char.ofNat 8)
  | 'f' => some (Char.ofNat 12)
  | 'n' => some '\n'
  | 'r' => some '\r'
  | 't' => some '\t'
  | _ => none

/-- Parse the body of a JSON string after the opening quote, returning the
decoded characters and the input remaining after the closing quote. -/
def parseStringBody : List Char → Option (List Char × List Char)
  | [] => none
  | '"' :: rest => some ([], rest)
  | '\\' :: rest =>
    match rest with
    | 'u' :: h1 :: h2 :: h3 :: h4 :: rest2 =>
      match hexVal h1, hexVal h2, hexVal h3, hexVal h4 with
      | some a, some b, some c, some d =>
        (parseStringBody rest2).map
          (fun p => (Char.ofNat (((a * 16 + b) * 16 + c) * 16 + d) :: p.1, p.2))
      | _, _, _, _ => none
    | e :: rest2 =>
      match escChar e with
      | some ec => (parseStringBody rest2).map (fun p => (ec :: p.1, p.2))
      | none => none
    | [] => none
  | c :: rest =>
    if c.toNat < 32 then none
    else (parseStringBody rest).map (fun p => (c :: p.1, p.2))

/-- Value of a decimal digit. -/
def digitVal (c : Char) : Option Nat :=
  if '0' ≤ c ∧ c ≤ '9' then some (c.toNat - 48) else none

/-- Take a maximal run of decimal digits. -/
def takeDigits : List Char → List Nat × List Char
  | [] => ([], [])
  | c :: cs =>
    match digitVal c with
    | some d =>
      let p := takeDigits cs
      (d :: p.1, p.2)
    | none => ([], c :: cs)

/-- Combine a digit run into a natural number. -/
def digitsToNat (ds : List Nat) : Nat :=
  ds.foldl (fun a d => a * 10 + d) 0

/-- Parse an optional JSON fraction part (`.` followed by digits). -/
def parseFrac : List Char → Option (ℚ × List Char)
  | '.' :: r =>
    let p := takeDigits r
    if p.1.isEmpty then none
    else some ((digitsToNat p.1 : ℚ) / (10 : ℚ) ^ p.1.length, p.2)
  | cs => some (0, cs)

/-- Parse an optional JSON exponent part. -/
def parseExp : List Char → Option (Bool × Nat × List Char)
  | c :: r =>
    if c = 'e' ∨ c = 'E' then
      let sp : Bool × List Char :=
        match r with
        | '+' :: r2 => (false, r2)
        | '-' :: r2 => (true, r2)
        | _ => (false, r)
      let p := takeDigits sp.2
      if p.1.isEmpty then none
      else some (sp.1, digitsToNat p.1, p.2)
    else some (false, 0, c :: r)
  | [] => some (false, 0, [])

/-- Parse a JSON number per the `JSON.parse` grammar. -/
def parseNumber (cs : List Char) : Option (ℚ × List Char) :=
  let sp : Bool × List Char :=
    match cs with
    | '-' :: r => (true, r)
    | _ => (false, cs)
  let ip := takeDigits sp.2
  if ip.1.isEmpty then none
  else if 1 < ip.1.length ∧ ip.1.head? = some 0 then none
  else
    match parseFrac ip.2 with
    | none => none
    | some (fq, cs3) =>
      match parseExp cs3 with
      | none => none
      | some (eneg, e, cs4) =>
        let base : ℚ := (digitsToNat ip.1 : ℚ) + fq
        let signed : ℚ := if sp.1 then -base else base
        let v : ℚ := if eneg then signed / (10 : ℚ) ^ e else signed * (10 : ℚ) ^ e
        some (v, cs4)

mutual

/-- Parse one JSON value (fuel-indexed recursive-descent, mirroring the
grammar accepted by `JSON.parse`). -/
def parseVal : Nat → List Char → Option (JVal × List Char)
  | 0, _ => none
  | fuel + 1, cs =>
    match skipWs cs with
    | 'n' :: 'u' :: 'l' :: 'l' :: r => some (.null, r)
    | 't' :: 'r' :: 'u' :: 'e' :: r => some (.bool true, r)
    | 'f' :: 'a' :: 'l' :: 's' :: 'e' :: r => some (.bool false, r)
    | '"' :: r => (parseStringBody r).map (fun p => (.str (String.mk p.1), p.2))
    | '[' :: r =>
      (match skipWs r with
       | ']' :: r2 => some (.arr [], r2)
       | r2 => (parseElems fuel r2).map (fun p => (.arr p.1, p.2)))
    | '{' :: r =>
      (match skipWs r with
       | '}' :: r2 => some (.obj [], r2)
       | r2 => (parseFields fuel r2).map (fun p => (.obj p.1, p.2)))
    | cs2 => (parseNumber cs2).map (fun p => (.num p.1, p.2))

/-- Parse the comma-separated elements of a non-empty JSON array. -/
def parseElems : Nat → List Char → Option (List JVal × List Char)
  | 0, _ => none
  | fuel + 1, cs =>
    match parseVal fuel cs with
    | none => none
    | some (v, r) =>
      match skipWs r with
      | ',' :: r2 => (parseElems fuel r2).map (fun p => (v :: p.1, p.2))
      | ']' :: r2 => some ([v], r2)
      | _ => none

/-- Parse the members of a non-empty JSON object. -/
def parseFields : Nat → List Char → Option (List (String × JVal) × List Char)
  | 0, _ => none
  | fuel + 1, cs =>
    match skipWs cs with
    | '"' :: r =>
      (match parseStringBody r with
       | none => none
       | some (kcs, r2) =>
         match skipWs r2 with
         | ':' :: r3 =>
           (match parseVal fuel r3 with
            | none => none
            | some (v, r4) =>
              match skipWs r4 with
              | ',' :: r5 =>
                (parseFields fuel r5).map (fun p => ((String.mk kcs, v) :: p.1, p.2))
              | '}' :: r5 => some ([(String.mk kcs, v)], r5)
              | _ => none)
         | _ => none)
    | _ => none

end

/-- Embeds JavaScript `JSON.parse` applied to the whole input: one value,
surrounded only by whitespace; any violation throws, modelled as `none`. -/
def jsonParse (s : String) : Option JVal :=
  match parseVal (s.length + 1) s.data with
  | some (v, rest) => if (skipWs rest).isEmpty then some v else none
  | none => none

/-- Case-insensitive character comparison (the `i` regex flag). -/
def lcEq (a b : Char) : Bool := a.toLower = b.toLower

/-- Embeds `.replace(/\x60\x60\x60json/gi, "\x60\x60\x60")`: scan left to
right, rewriting each case-insensitive 7-character fence-with-language
marker to a bare 3-character fence. -/
def replaceFenceJson : List Char → List Char
  | a :: b :: c :: c1 :: c2 :: c3 :: c4 :: rest =>
    if a = btick ∧ b = btick ∧ c = btick ∧
        lcEq c1 'j' ∧ lcEq c2 's' ∧ lcEq c3 'o' ∧ lcEq c4 'n' then
      btick :: btick :: btick :: replaceFenceJson rest
    else
      a :: replaceFenceJson (b :: c :: c1 :: c2 :: c3 :: c4 :: rest)
  | c :: rest => c :: replaceFenceJson rest
  | [] => []

/-- Embeds `.replace(/\x60\x60\x60/g, "")`: delete every 3-backtick run,
scanning left to right. -/
def removeFences : List Char → List Char
  | a :: b :: c :: rest =>
    if a = btick ∧ b = btick ∧ c = btick then removeFences rest
    else a :: removeFences (b :: c :: rest)
  | c :: rest => c :: removeFences rest
  | [] => []

/-- Whitespace removed by JavaScript `String.prototype.trim`. -/
def isJsWs (c : Char) : Bool :=
  c = ' ' || c = '\t' || c = '\n' || c = '\r' ||
  c = Char.ofNat 11 || c = Char.ofNat 12 || c = Char.ofNat 160 ||
  c = Char.ofNat 0xFEFF || c = Char.ofNat 0x2028 || c = Char.ofNat 0x2029

/-- Embeds `.trim()`. -/
def jsTrim (cs : List Char) : List Char :=
  ((cs.dropWhile isJsWs).reverse.dropWhile isJsWs).reverse

/-- The fence-stripping and trimming performed inside `safeJson`. -/
def cleanFences (s : String) : String :=
  String.mk (jsTrim (removeFences (replaceFenceJson s.data)))

/-- Embeds `safeJson` from `lib/utils-local.ts`: strip code fences, trim,
then `JSON.parse`; a parse exception is caught and becomes `null`. -/
def safeJson (raw : String) : Option JVal :=
  jsonParse (cleanFences raw)

/-! ## lib/types.ts

`extractUrls` and the `urls` field of `AnalysisResult` are outside the
embedded fragment: no claim concerns them. -/

/-- Embeds `DetectionMethod`.  The route casts `body.detectionMethod`
without runtime validation, so `other` models any string that is none of
the three recognized values. -/
inductive DetectionMethod where
  | mlOnly
  | agentsOnly
  | both
  | other (s : String)
  deriving DecidableEq

/-- `detectionMethod === "ml-only" || detectionMethod === "both"`. -/
def usesML : DetectionMethod → Bool
  | .mlOnly => true
  | .both => true
  | _ => false

/-- `detectionMethod === "agents-only" || detectionMethod === "both"`. -/
def usesAgents : DetectionMethod → Bool
  | .agentsOnly => true
  | .both => true
  | _ => false

/-- The four reasoning-agent dimensions of the `AGENTS` table. -/
inductive AgentKey where
  | content
  | link
  | sender
  | context
  deriving DecidableEq

/-- The `key` field of the `AGENTS` table entry. -/
def AgentKey.keyStr : AgentKey → String
  | .content => "content"
  | .link => "link"
  | .sender => "sender"
  | .context => "context"

/-- The `name` field of the `AGENTS` table entry. -/
def AgentKey.agentName : AgentKey → String
  | .content => "Content Analysis Agent"
  | .link => "Link Security Agent"
  | .sender => "Sender Verification Agent"
  | .context => "Context Awareness Agent"

/-- Runtime shape of an agent response decoded by `safeJson<AgentJSON>`.
The TypeScript cast performs no validation, so every field may be absent
(`none`); numeric fields are assumed numeric when present. -/
structure AgentJSON where
  suspicionScore : Option ℚ := none
  /-- Legacy key `score`, still read by `toAgentResult`. -/
  score : Option ℚ := none
  classification : Option String := none
  language : Option String := none
  signals : Option (List String) := none
  features : Option (List String) := none
  rationale : Option String := none
  confidence : Option ℚ := none
  mismatchExplanation : Option String := none
  deriving DecidableEq

/-- Embeds `AgentResult` from `lib/types.ts` (runtime view: the
`classification` passthrough is an unvalidated string). -/
structure AgentResult where
  key : String
  name : String
  score : ℚ
  classification : Option String
  language : Option String
  signals : List String
  features : List String
  rationale : String
  mismatchExplanation : Option String
  deriving DecidableEq

/-- Embeds the `MLResponse` shape returned by the ML service. -/
structure MLResponse where
  prediction : String
  confidence : ℚ
  probabilities : List (String × ℚ)
  is_fraud : Bool
  deriving DecidableEq

/-- Embeds `MLResult` from `lib/types.ts`. -/
structure MLResult where
  prediction : String
  confidence : ℚ
  probabilities : List (String × ℚ)
  is_fraud : Bool
  available : Bool
  deriving DecidableEq

/-- Runtime shape of the decision response decoded by
`safeJson<DecisionResult>`: the cast performs no validation, so `risk` may
be any string or absent. -/
structure DecisionJSON where
  risk : Option String := none
  confidence : Option ℚ := none
  explanation : Option String := none
  deriving DecidableEq

/-- The `overall` component of `AnalysisResult` as assembled by the route. -/
structure Overall where
  risk : Option String
  confidence : Option ℚ
  explanation : String
  deriving DecidableEq

/-- The `agents` record of `AnalysisResult`. -/
structure Agents where
  content : AgentResult
  link : AgentResult
  sender : AgentResult
  context : AgentResult
  deriving DecidableEq

/-- The `input` echo of `AnalysisResult`. -/
structure InputEcho where
  text : String
  receivedAt : Option String
  priorFromSender : Option ℚ
  expected : Option Bool
  detectionMethod : DetectionMethod
  originalLanguage : String
  translatedText : String
  deriving DecidableEq

/-- Embeds `AnalysisResult` from `lib/types.ts` (minus `urls`, which no
claim concerns). -/
structure AnalysisResult where
  input : InputEcho
  ml : Option MLResult
  agents : Option Agents
  overall : Overall
  deriving DecidableEq

/-! ## app/api/analyze/route.ts -/

/-- Settled outcome of the `fetch` inside `callMLService`. -/
inductive MLFetchOutcome where
  | threw
  | notOk
  | ok (r : MLResponse)
  deriving DecidableEq

/-- Embeds `callMLService`: the `try`/`catch` absorbs a thrown `fetch` (or
a thrown `response.json()`), and a non-ok status returns `null`. -/
def callMLService : MLFetchOutcome → Option MLResponse
  | .threw => none
  | .notOk => none
  | .ok r => some r

/-- Runtime shape of the translation response decoded by
`safeJson<fun language translation>`. -/
structure TLJson where
  language : Option String := none
  translation : Option String := none
  deriving DecidableEq

/-- The value returned by `detectAndTranslate`. -/
structure Normalized where
  language : String
  translated : String
  deriving DecidableEq

/-- Embeds `detectAndTranslate`.  The argument is the settled outcome of
the translation `generateText` call: `Except.error` models a rejection
(caught by the `try`/`catch`), `Except.ok p` a returned text whose
`safeJson` decode is `p`.  The `parsed && parsed.translation` truthiness
test makes an empty translation string fall back as well. -/
def detectAndTranslate (text : String) : Except Unit (Option TLJson) → Normalized
  | .error _ => ⟨"unknown", text⟩
  | .ok none => ⟨"unknown", text⟩
  | .ok (some p) =>
    match p.translation with
    | none => ⟨"unknown", text⟩
    | some t => if t = "" then ⟨"unknown", text⟩ else ⟨p.language.getD "unknown", t⟩

/-- Embeds `toAgentResult` from the analyze route: clamp the score chain
`parsed?.suspicionScore ?? parsed?.score ?? parsed?.confidence ?? 0.5` and
pass every other field through with its default. -/
def toAgentResult (key : AgentKey) (parsed : Option AgentJSON) : AgentResult :=
  { key := key.keyStr
    name := key.agentName
    score := clamp01 (some ((((parsed.bind AgentJSON.suspicionScore).orElse
        (fun _ => parsed.bind AgentJSON.score)).orElse
        (fun _ => parsed.bind AgentJSON.confidence)).getD (1 / 2)))
    classification := parsed.bind AgentJSON.classification
    language := parsed.bind AgentJSON.language
    signals := (parsed.bind AgentJSON.signals).getD []
    features := (parsed.bind AgentJSON.features).getD []
    rationale := (parsed.bind AgentJSON.rationale).getD ""
    mismatchExplanation := parsed.bind AgentJSON.mismatchExplanation }

/-- The literal fallback object used when the decision response fails to
parse. -/
def fallbackDecision : DecisionJSON :=
  { risk := some "medium"
    confidence := some (1 / 2)
    explanation := some "Insufficient structured output; defaulted to medium risk." }

/-- Adapts an `MLResponse` into the `ml` field of `AnalysisResult`
(pass-through of `prediction`, `confidence`, `probabilities`, `is_fraud`;
`available := true`). -/
def mlToResult (m : MLResponse) : MLResult :=
  { prediction := m.prediction
    confidence := m.confidence
    probabilities := m.probabilities
    is_fraud := m.is_fraud
    available := true }

/-- The `body?.text` field of the analyze request: absent (or `null`), a
string, or a non-string value (with its JavaScript truthiness). -/
inductive BodyText where
  | absent
  | str (s : String)
  | nonString (truthy : Bool)
  deriving DecidableEq

/-- `body?.text ?? ""`. -/
def textOfBody : BodyText → BodyText
  | .absent => .str ""
  | b => b

/-- All inputs of one analyze `POST` invocation: the request body fields
plus the settled outcomes of every external call the handler can make.
Each `Except.error` models a rejected `generateText` promise; each
`Except.ok` carries the `safeJson` decode of the returned text. -/
structure PostInputs where
  bodyText : BodyText
  receivedAt : Option String := none
  priorFromSender : Option ℚ := none
  expected : Option Bool := none
  detectionMethod : DetectionMethod := .both
  tlOutcome : Except Unit (Option TLJson)
  mlOutcome : MLFetchOutcome
  agentOutcome : AgentKey → Except Unit (Option AgentJSON)
  decisionOutcome : Except Unit (Option DecisionJSON)

/-- The analyze route's possible HTTP responses. -/
inductive Response where
  | badRequest (error : String)
  | ok (result : AnalysisResult)
  deriving DecidableEq

instance {ε α : Type} [DecidableEq ε] [DecidableEq α] : DecidableEq (Except ε α) :=
  fun x y =>
    match x, y with
    | .error a, .error b =>
      if h : a = b then .isTrue (by rw [h]) else .isFalse (fun c => h (Except.error.inj c))
    | .ok a, .ok b =>
      if h : a = b then .isTrue (by rw [h]) else .isFalse (fun c => h (Except.ok.inj c))
    | .error _, .ok _ => .isFalse (fun c => Except.noConfusion c)
    | .ok _, .error _ => .isFalse (fun c => Except.noConfusion c)

/-- The decision stage and result assembly (the code after the agent
stage): a rejected decision `generateText` is not caught, so it escapes as
`Except.error`; otherwise the parsed decision (or the fallback) is
assembled into the `AnalysisResult`. -/
def finishPOST (inp : PostInputs) (s : String) (tl : Normalized)
    (ml : Option MLResponse) (agents : Option Agents) : Except Unit Response :=
  match inp.decisionOutcome with
  | .error _ => .error ()
  | .ok pd =>
    let d := pd.getD fallbackDecision
    .ok (.ok
      { input :=
          { text := s
            receivedAt := inp.receivedAt
            priorFromSender := inp.priorFromSender
            expected := inp.expected
            detectionMethod := inp.detectionMethod
            originalLanguage := tl.language
            translatedText := tl.translated }
        ml := ml.map mlToResult
        agents := agents
        overall :=
          { risk := d.risk
            confidence := d.confidence.map (fun c => clamp01 (some c))
            explanation := d.explanation.getD "" } })

/-- The agent stage: when agents are selected, the handler awaits a
`Promise.all` over the four uncaught `generateText` calls — it rejects
(`Except.error`) as soon as any one of them rejects, and otherwise yields
the four parsed-and-adapted `AgentResult`s; when agents are not selected,
`agents` stays `null`. -/
def agentStage (inp : PostInputs) : Except Unit (Option Agents) :=
  if usesAgents inp.detectionMethod then
    match inp.agentOutcome .content, inp.agentOutcome .link,
        inp.agentOutcome .sender, inp.agentOutcome .context with
    | .ok pc, .ok pl, .ok ps, .ok px =>
      .ok (some
        { content := toAgentResult .content pc
          link := toAgentResult .link pl
          sender := toAgentResult .sender ps
          context := toAgentResult .context px })
    | _, _, _, _ => .error ()
  else .ok none

/-- Embeds the analyze route's `POST` handler.  Validation rejects with a
400 response exactly as the source guard does; the ML stage absorbs its
failures via `callMLService`; the agent stage is a `Promise.all` whose
rejection (any single agent call rejecting) is not caught and escapes as
`Except.error`.  (JavaScript string length counts UTF-16 units; the
embedding uses Lean's code-point length, which agrees on all
non-astral-plane text.) -/
def POST (inp : PostInputs) : Except Unit Response :=
  match textOfBody inp.bodyText with
  | .str s =>
    if s = "" ∨ 8000 < s.length then
      .ok (.badRequest "Provide SMS text (<= 8000 chars)")
    else
      let tl := detectAndTranslate s inp.tlOutcome
      let ml : Option MLResponse :=
        if usesML inp.detectionMethod then callMLService inp.mlOutcome else none
      match agentStage inp with
      | .error _ => .error ()
      | .ok agents => finishPOST inp s tl ml agents
  | _ => .ok (.badRequest "Provide SMS text (<= 8000 chars)")

/-! ## app/api/feedback/route.ts -/

/-- The `body.correct` field of the feedback request, as seen by the
`typeof` check. -/
inductive CorrectField where
  | absent
  | boolVal (b : Bool)
  | other
  deriving DecidableEq

/-- The feedback route's possible HTTP responses. -/
inductive FeedbackResponse where
  | badRequest (error : String)
  | ok
  deriving DecidableEq

/-- Embeds the feedback route's `POST` handler.  After the guard, the
handler evaluates `Object.entries(body.analysis.agents)`, which throws a
`TypeError` when `agents` is `null` (the classifier-only shape); that
uncaught throw is modelled as `Except.error`. -/
def feedbackPOST (correct : CorrectField) (analysis : Option AnalysisResult) :
    Except Unit FeedbackResponse :=
  match correct, analysis with
  | .boolVal _, some a =>
    match a.agents with
    | none => .error ()
    | some _ => .ok .ok
  | _, _ => .ok (.badRequest "Invalid payload")

/-! ## Concrete instances used in counterexamples and witnesses -/

/-- The four placeholder `AgentResult`s produced when every agent response
fails to parse. -/
def defaultAgents : Agents :=
  { content := toAgentResult .content none
    link := toAgentResult .link none
    sender := toAgentResult .sender none
    context := toAgentResult .context none }

/-- An ML-service response carrying an out-of-range confidence. -/
def c2ML : MLResponse :=
  { prediction := "spam", confidence := 7 / 5, probabilities := [("spam", 7 / 5)],
    is_fraud := true }

/-- A well-formed parsed decision. -/
def c2Dec : DecisionJSON :=
  { risk := some "high", confidence := some (3 / 10), explanation := some "combined" }

/-- Analyze request: both sources, ML service returning `c2ML`, all agent
responses unparsable, decision parsing to `c2Dec`. -/
def c2Inp : PostInputs :=
  { bodyText := .str "hello"
    detectionMethod := .both
    tlOutcome := .ok none
    mlOutcome := .ok c2ML
    agentOutcome := fun _ => .ok none
    decisionOutcome := .ok (some c2Dec) }

/-- The result the handler assembles for `c2Inp`. -/
def c2Res : AnalysisResult :=
  { input := { text := "hello"
               receivedAt := none
               priorFromSender := none
               expected := none
               detectionMethod := .both
               originalLanguage := "unknown"
               translatedText := "hello" }
    ml := some (mlToResult c2ML)
    agents := some defaultAgents
    overall := { risk := some "high"
                 confidence := some (3 / 10)
                 explanation := "combined" } }

/-- Analyze request on which no evidence source yields usable structured
output: translation call rejected, ML fetch threw, all four agent
responses unparsable, decision response unparsable. -/
def c3Inp : PostInputs :=
  { bodyText := .str "hello"
    detectionMethod := .both
    tlOutcome := .error ()
    mlOutcome := .threw
    agentOutcome := fun _ => .ok none
    decisionOutcome := .ok none }

/-- The result the handler assembles for `c3Inp`. -/
def c3Res : AnalysisResult :=
  { input := { text := "hello"
               receivedAt := none
               priorFromSender := none
               expected := none
               detectionMethod := .both
               originalLanguage := "unknown"
               translatedText := "hello" }
    ml := none
    agents := some defaultAgents
    overall := { risk := some "medium"
                 confidence := some (1 / 2)
                 explanation := "Insufficient structured output; defaulted to medium risk." } }

/-- Analyze request whose decision `generateText` call rejects. -/
def c5Inp : PostInputs :=
  { bodyText := .str "hello"
    detectionMethod := .both
    tlOutcome := .ok none
    mlOutcome := .notOk
    agentOutcome := fun _ => .ok none
    decisionOutcome := .error () }

/-- A parsed decision whose `risk` string is outside the documented set. -/
def c6Dec : DecisionJSON :=
  { risk := some "critical", confidence := some (9 / 10), explanation := some "because" }

/-- Analyze request (ml-only, ML fetch threw) whose decision parses to
`c6Dec`. -/
def c6Inp : PostInputs :=
  { bodyText := .str "hello"
    detectionMethod := .mlOnly
    tlOutcome := .error ()
    mlOutcome := .threw
    agentOutcome := fun _ => .ok none
    decisionOutcome := .ok (some c6Dec) }

/-- The result the handler assembles for `c6Inp`. -/
def c6Res : AnalysisResult :=
  { input := { text := "hello"
               receivedAt := none
               priorFromSender := none
               expected := none
               detectionMethod := .mlOnly
               originalLanguage := "unknown"
               translatedText := "hello" }
    ml := none
    agents := none
    overall := { risk := some "critical"
                 confidence := some (9 / 10)
                 explanation := "because" } }

/-- A classifier-only `AnalysisResult` (its `agents` field is `null`), as
produced by the analyze route in ml-only mode. -/
def agentsNullAnalysis : AnalysisResult :=
  { input := { text := "hi"
               receivedAt := none
               priorFromSender := none
               expected := none
               detectionMethod := .mlOnly
               originalLanguage := "en"
               translatedText := "hi" }
    ml := some (mlToResult { prediction := "ham"
                             confidence := 9 / 10
                             probabilities := [("ham", 9 / 10)]
                             is_fraud := false })
    agents := none
    overall := { risk := some "low"
                 confidence := some (9 / 10)
                 explanation := "ok" } }

/-- An `AnalysisResult` whose `agents` field is present. -/
def agentsPresentAnalysis : AnalysisResult :=
  { input := { text := "hi"
               receivedAt := none
               priorFromSender := none
               expected := none
               detectionMethod := .both
               originalLanguage := "en"
               translatedText := "hi" }
    ml := none
    agents := some defaultAgents
    overall := { risk := some "medium"
                 confidence := none
                 explanation := "ok" } }

/-! ## Helper lemmas -/

/-- `clamp01` always lands in the unit interval. -/
theorem clamp01_mem (n : Option ℚ) : 0 ≤ clamp01 n ∧ clamp01 n ≤ 1 := by
  cases n with
  | none => simp [clamp01]
  | some q =>
    simp only [clamp01, jsMax, jsMin]
    split_ifs <;> constructor <;> linarith

/-- The post-validation stages never produce the 400 response. -/
theorem finishPOST_ne_badRequest (inp : PostInputs) (s : String) (tl : Normalized)
    (ml : Option MLResponse) (agents : Option Agents) (e : String) :
    finishPOST inp s tl ml agents ≠ .ok (.badRequest e) := by
  unfold finishPOST
  cases inp.decisionOutcome <;> simp

/-- The decision stage escapes exactly when the decision call rejected. -/
theorem finishPOST_error_iff (inp : PostInputs) (s : String) (tl : Normalized)
    (ml : Option MLResponse) (ag : Option Agents) :
    finishPOST inp s tl ml ag = .error () ↔ inp.decisionOutcome = .error () := by
  unfold finishPOST
  rcases hd : inp.decisionOutcome with u | pd <;> simp

/-- The agent stage rejects exactly when agents are in use and at least
one agent call rejected. -/
theorem agentStage_error_iff (inp : PostInputs) :
    agentStage inp = .error () ↔
      usesAgents inp.detectionMethod = true ∧
        (inp.agentOutcome .content = .error () ∨ inp.agentOutcome .link = .error () ∨
         inp.agentOutcome .sender = .error () ∨ inp.agentOutcome .context = .error ()) := by
  unfold agentStage
  by_cases husa : usesAgents inp.detectionMethod = true
  · rw [if_pos husa]
    rcases h1 : inp.agentOutcome .content with ⟨⟨⟩⟩ | pc <;>
      rcases h2 : inp.agentOutcome .link with ⟨⟨⟩⟩ | pl <;>
      rcases h3 : inp.agentOutcome .sender with ⟨⟨⟩⟩ | ps <;>
      rcases h4 : inp.agentOutcome .context with ⟨⟨⟩⟩ | px <;>
      simp [husa]
  · rw [if_neg husa]
    simp [husa]

/-- When the agent stage succeeds, its value is either `none` (agents not
in use) or the four adapted agent results. -/
theorem agentStage_ok_shape (inp : PostInputs) (ag : Option Agents)
    (h : agentStage inp = .ok ag) :
    ag = none ∨
      ∃ pc pl ps px, ag = some
        { content := toAgentResult .content pc, link := toAgentResult .link pl,
          sender := toAgentResult .sender ps, context := toAgentResult .context px } := by
  unfold agentStage at h
  by_cases husa : usesAgents inp.detectionMethod = true
  · rw [if_pos husa] at h
    rcases h1 : inp.agentOutcome .content with ⟨⟨⟩⟩ | pc <;>
      rcases h2 : inp.agentOutcome .link with ⟨⟨⟩⟩ | pl <;>
      rcases h3 : inp.agentOutcome .sender with ⟨⟨⟩⟩ | ps <;>
      rcases h4 : inp.agentOutcome .context with ⟨⟨⟩⟩ | px <;>
      rw [h1, h2, h3, h4] at h <;>
      simp at h
    exact Or.inr ⟨pc, pl, ps, px, h.symm⟩
  · rw [if_neg husa] at h
    exact Or.inl (Except.ok.inj h).symm

/-- Shape of every successful analyze response: the `overall` fields come
from the parsed decision (or the fallback), the `ml` field is the
unclamped pass-through of the ML-stage value, and the `agents` field is
either `null` or the four adapted agent results. -/
theorem post_ok_shape (inp : PostInputs) (r : AnalysisResult)
    (h : POST inp = .ok (.ok r)) :
    (∃ pd, inp.decisionOutcome = Except.ok pd ∧
        r.overall.risk = (pd.getD fallbackDecision).risk ∧
        r.overall.confidence =
          (pd.getD fallbackDecision).confidence.map (fun c => clamp01 (some c)) ∧
        r.overall.explanation = (pd.getD fallbackDecision).explanation.getD "") ∧
    r.ml = (if usesML inp.detectionMethod then callMLService inp.mlOutcome
        else none).map mlToResult ∧
    (r.agents = none ∨
      ∃ pc pl ps px, r.agents = some
        { content := toAgentResult .content pc, link := toAgentResult .link pl,
          sender := toAgentResult .sender ps, context := toAgentResult .context px }) := by
  rw [POST] at h
  rcases hbt : inp.bodyText with _ | s | t
  · rw [hbt] at h
    simp [textOfBody] at h
  · rw [hbt] at h
    simp only [textOfBody] at h
    by_cases hval : s = "" ∨ 8000 < s.length
    · rw [if_pos hval] at h
      exact absurd h (by simp)
    · rw [if_neg hval] at h
      rcases hag : agentStage inp with ⟨⟨⟩⟩ | ag
      · rw [hag] at h
        exact Except.noConfusion h
      · rw [hag] at h
        unfold finishPOST at h
        rcases hdec : inp.decisionOutcome with ⟨⟨⟩⟩ | pd
        · rw [hdec] at h
          exact Except.noConfusion h
        · rw [hdec] at h
          have hr := Response.ok.inj (Except.ok.inj h)
          subst hr
          exact ⟨⟨pd, rfl, rfl, rfl, rfl⟩, rfl, agentStage_ok_shape inp ag hag⟩
  · rw [hbt] at h
    simp [textOfBody] at h

/-! ## Claim theorems -/

/-- C10: `safeJson` is total — it is the composition of the deterministic
fence-stripping cleanup with the total `jsonParse`, returning the parsed
value or `none` and never throwing; a JSON object wrapped in fenced code
blocks parses successfully, and non-JSON text yields `none`. -/
theorem safeJson_total_fence_stripping :
    (∀ s : String, safeJson s = jsonParse (cleanFences s)) ∧
    safeJson "```json\n\x7b\"risk\": \"low\", \"confidence\": 0.5\x7d\n```"
      = some (.obj [("risk", .str "low"), ("confidence", .num (1 / 2))]) ∧
    safeJson "\x7b\"a\": 1\x7d" = some (.obj [("a", .num 1)]) ∧
    safeJson "this is not valid JSON" = none :=
  ⟨fun _ => rfl, by with_unfolding_all rfl, by with_unfolding_all rfl,
    by with_unfolding_all rfl⟩

/-- C8: `detectAndTranslate` is total and falls back to the original text
with language "unknown" whenever the underlying call rejects, its output
fails to parse, or the parsed object lacks a (truthy) translation; when a
translation is present the detected language (or "unknown") is used. -/
theorem detect_and_translate_total (text : String) (l : Option String) (t : String) :
    detectAndTranslate text (.error ()) = ⟨"unknown", text⟩ ∧
    detectAndTranslate text (.ok none) = ⟨"unknown", text⟩ ∧
    detectAndTranslate text (.ok (some ⟨l, none⟩)) = ⟨"unknown", text⟩ ∧
    detectAndTranslate text (.ok (some ⟨l, some t⟩)) =
      (if t = "" then ⟨"unknown", text⟩ else ⟨l.getD "unknown", t⟩) :=
  ⟨rfl, rfl, rfl, rfl⟩

/-- C7: the analyze handler returns the 400 validation response exactly
when `body.text` is not a non-empty string of length at most 8000; in that
case the response is the same for every outcome of the downstream calls
(the rejection short-circuits before any of them matters). -/
theorem post_validation_gate (inp : PostInputs) :
    POST inp = .ok (.badRequest "Provide SMS text (<= 8000 chars)") ↔
      ¬ ∃ s, inp.bodyText = .str s ∧ s ≠ "" ∧ s.length ≤ 8000 := by
  rcases hbt : inp.bodyText with _ | s | t
  · simp [POST, hbt, textOfBody]
  · by_cases hval : s = "" ∨ 8000 < s.length
    · rw [POST]
      simp only [hbt, textOfBody, if_pos hval]
      simp only [true_iff, eq_self_iff_true]
      rintro ⟨s', hs', hne, hle⟩
      cases BodyText.str.inj hs'
      rcases hval with h | h
      · exact hne h
      · omega
    · rw [POST]
      simp only [hbt, textOfBody, if_neg hval]
      push_neg at hval
      constructor
      · intro h
        exfalso
        rcases hag : agentStage inp with u | ag <;> simp only [hag] at h
        · exact Except.noConfusion h
        · exact finishPOST_ne_badRequest _ _ _ _ _ _ h
      · intro h
        exfalso
        exact h ⟨s, rfl, hval.1, hval.2⟩
  · simp [POST, hbt, textOfBody]

/-- C1 counterexample: the code does not recompute judgments from the
threshold policy.  A parsed item with score 0.85 and no self-reported
classification keeps an absent classification (not "suspicious"), and a
parsed item with score 0.5 and self-reported classification "suspicious"
carries no synthesized mismatch explanation. -/
theorem reconciler_no_recompute_cex :
    (toAgentResult .content (some { suspicionScore := some (85 / 100) })).classification ≠
        some "suspicious" ∧
    (toAgentResult .content
        (some { suspicionScore := some (1 / 2), classification := some "suspicious" })
      ).mismatchExplanation = none := by
  exact ⟨by simp [toAgentResult], by simp [toAgentResult]⟩

/-- C1 amended: `toAgentResult` passes the collector's self-reported
classification and mismatch explanation through unchanged (absent stays
absent, nothing is synthesized) and clamps only the numeric score into
the unit interval; the threshold policy lives solely in the agents'
system prompts. -/
theorem reconciler_passthrough_amended (key : AgentKey) (parsed : Option AgentJSON) :
    (toAgentResult key parsed).classification = parsed.bind AgentJSON.classification ∧
    (toAgentResult key parsed).mismatchExplanation =
      parsed.bind AgentJSON.mismatchExplanation ∧
    0 ≤ (toAgentResult key parsed).score ∧ (toAgentResult key parsed).score ≤ 1 :=
  ⟨rfl, rfl, (clamp01_mem _).1, (clamp01_mem _).2⟩

/-- C4 counterexample: an agent whose structured response fails to parse
is not dropped — `toAgentResult` gives it the default suspicion score 0.5,
and the assembled result (here: valid input, agents-only mode, every
agent response unparsable, decision unparsable) still carries all four
scored entries. -/
theorem agent_parse_failure_cex :
    POST { bodyText := .str "hi"
           detectionMethod := .agentsOnly
           tlOutcome := .error ()
           mlOutcome := .threw
           agentOutcome := fun _ => .ok none
           decisionOutcome := .ok none } =
      .ok (.ok
        { input := { text := "hi"
                     receivedAt := none
                     priorFromSender := none
                     expected := none
                     detectionMethod := .agentsOnly
                     originalLanguage := "unknown"
                     translatedText := "hi" }
          ml := none
          agents := some { content := toAgentResult .content none
                           link := toAgentResult .link none
                           sender := toAgentResult .sender none
                           context := toAgentResult .context none }
          overall := { risk := some "medium"
                       confidence := some (1 / 2)
                       explanation := "Insufficient structured output; defaulted to medium risk." } }) ∧
    (toAgentResult .content none).score = 1 / 2 := by
  exact ⟨by with_unfolding_all rfl, by with_unfolding_all rfl⟩

/-- C4 amended: a failed agent parse produces a placeholder `AgentResult`
with default score 0.5, empty signals, features and rationale, and no
classification — it is included in the `agents` record handed to the
decision step and the caller, rather than being treated as absent. -/
theorem agent_parse_failure_default_amended (key : AgentKey) :
    toAgentResult key none =
      { key := key.keyStr, name := key.agentName, score := 1 / 2,
        classification := none, language := none, signals := [], features := [],
        rationale := "", mismatchExplanation := none } := by
  cases key <;> with_unfolding_all rfl

/-- C2 counterexample: the classifier confidence is not clamped — an ML
response with confidence 1.4 reaches the returned `AnalysisResult`
unchanged, so not every confidence value in the result lies in the unit
interval. -/
theorem ml_confidence_unclamped_cex :
    POST c2Inp = .ok (.ok c2Res) ∧
    c2Res.ml = some (mlToResult c2ML) ∧
    (mlToResult c2ML).confidence = 7 / 5 ∧
    ¬ ((7 : ℚ) / 5 ≤ 1) := by
  exact ⟨by with_unfolding_all rfl, rfl, rfl, by norm_num⟩

/-- C2 amended: in every successful analyze response the four agent scores
are clamped into the unit interval and the overall confidence, when
present, is clamped into the unit interval; the classifier confidence and
probabilities, however, are passed through from the ML service
unclamped. -/
theorem result_bounds_amended (inp : PostInputs) (r : AnalysisResult) (a : Agents)
    (c : ℚ) (h : POST inp = .ok (.ok r)) (ha : r.agents = some a)
    (hc : r.overall.confidence = some c) :
    (0 ≤ a.content.score ∧ a.content.score ≤ 1) ∧
    (0 ≤ a.link.score ∧ a.link.score ≤ 1) ∧
    (0 ≤ a.sender.score ∧ a.sender.score ≤ 1) ∧
    (0 ≤ a.context.score ∧ a.context.score ≤ 1) ∧
    (0 ≤ c ∧ c ≤ 1) ∧
    r.ml = (if usesML inp.detectionMethod then callMLService inp.mlOutcome
        else none).map mlToResult := by
  obtain ⟨⟨pd, hdec, hrisk, hconf, hexp⟩, hml, hagsh⟩ := post_ok_shape inp r h
  have hcbound : 0 ≤ c ∧ c ≤ 1 := by
    rw [hconf] at hc
    rcases hcc : (pd.getD fallbackDecision).confidence with _ | c0
    · rw [hcc] at hc
      exact absurd hc (by simp)
    · rw [hcc] at hc
      have hc2 := Option.some.inj hc
      rw [← hc2]
      exact clamp01_mem _
  rcases hagsh with hnone | ⟨pc, pl, ps, px, hsome⟩
  · rw [hnone] at ha
    exact absurd ha (by simp)
  · rw [hsome] at ha
    have haa := Option.some.inj ha
    subst haa
    exact ⟨clamp01_mem _, clamp01_mem _, clamp01_mem _, clamp01_mem _, hcbound, hml⟩

/-- C2 witness: the amended bounds hold at `c2Inp`. -/
theorem result_bounds_amended_witness :
    (0 ≤ defaultAgents.content.score ∧ defaultAgents.content.score ≤ 1) ∧
    (0 ≤ defaultAgents.link.score ∧ defaultAgents.link.score ≤ 1) ∧
    (0 ≤ defaultAgents.sender.score ∧ defaultAgents.sender.score ≤ 1) ∧
    (0 ≤ defaultAgents.context.score ∧ defaultAgents.context.score ≤ 1) ∧
    (0 ≤ (3 : ℚ) / 10 ∧ (3 : ℚ) / 10 ≤ 1) ∧
    c2Res.ml = (if usesML c2Inp.detectionMethod then callMLService c2Inp.mlOutcome
        else none).map mlToResult :=
  result_bounds_amended c2Inp c2Res defaultAgents (3 / 10)
    (by with_unfolding_all rfl) rfl rfl

/-- C3 counterexample: when no evidence source yields usable structured
output, the returned verdict's confidence is not absent — the fallback
decision carries confidence 0.5. -/
theorem fallback_confidence_cex :
    POST c3Inp = .ok (.ok c3Res) ∧
    c3Res.overall.confidence = some (1 / 2) ∧
    c3Res.overall.confidence ≠ none := by
  exact ⟨by with_unfolding_all rfl, rfl, by simp [c3Res]⟩

/-- C3 amended: whenever the decision response fails to parse (in
particular in the total-failure scenario with every collector
unavailable), the returned verdict is exactly risk "medium", confidence
0.5, and the explanation "Insufficient structured output; defaulted to
medium risk." (which contains "Insufficient"). -/
theorem fallback_verdict_amended (inp : PostInputs) (r : AnalysisResult)
    (h : POST inp = .ok (.ok r)) (hd : inp.decisionOutcome = .ok none) :
    r.overall = { risk := some "medium"
                  confidence := some (1 / 2)
                  explanation := "Insufficient structured output; defaulted to medium risk." } := by
  obtain ⟨⟨pd, hdec, hrisk, hconf, hexp⟩, _, _⟩ := post_ok_shape inp r h
  rw [hd] at hdec
  have hpd := Except.ok.inj hdec
  subst hpd
  rcases ho : r.overall with ⟨orisk, oconf, oexp⟩
  rw [ho] at hrisk hconf hexp
  simp only at hrisk hconf hexp
  rw [hrisk, hconf, hexp]
  with_unfolding_all rfl

/-- C3 witness: the amended fallback verdict holds at `c3Inp`. -/
theorem fallback_verdict_amended_witness :
    c3Res.overall = { risk := some "medium"
                      confidence := some (1 / 2)
                      explanation := "Insufficient structured output; defaulted to medium risk." } :=
  fallback_verdict_amended c3Inp c3Res (by with_unfolding_all rfl) rfl

/-- C5 counterexample: a single rejected agent call makes the whole
handler throw — with valid input and every other source healthy, the
handler yields no `AnalysisResult` at all, so the failure is not absorbed
into an unavailability marker. -/
theorem agent_throw_propagates_cex :
    POST { bodyText := .str "hello"
           detectionMethod := .both
           tlOutcome := .ok none
           mlOutcome := .notOk
           agentOutcome := fun k => match k with
             | .content => .error ()
             | _ => .ok none
           decisionOutcome := .ok none } = .error () := by
  with_unfolding_all rfl

/-- C5 amended: for valid input, translation-call and ML-call failures are
absorbed, but the handler throws exactly when agents are in use and some
agent `generateText` call rejects, or the decision `generateText` call
rejects; only those two uncaught channels escape the handler. -/
theorem post_error_characterization_amended (inp : PostInputs) (s : String)
    (hs : inp.bodyText = .str s) (h1 : s ≠ "") (h2 : s.length ≤ 8000) :
    POST inp = .error () ↔
      ((usesAgents inp.detectionMethod = true ∧
        (inp.agentOutcome .content = .error () ∨ inp.agentOutcome .link = .error () ∨
         inp.agentOutcome .sender = .error () ∨ inp.agentOutcome .context = .error ())) ∨
       inp.decisionOutcome = .error ()) := by
  have hval : ¬ (s = "" ∨ 8000 < s.length) := by
    rintro (rfl | hlen)
    · exact h1 rfl
    · omega
  rw [POST, hs]
  simp only [textOfBody]
  rw [if_neg hval]
  rcases hag : agentStage inp with ⟨⟨⟩⟩ | ag
  · constructor
    · intro _
      exact Or.inl ((agentStage_error_iff inp).mp hag)
    · intro _
      rfl
  · rw [finishPOST_error_iff]
    constructor
    · exact fun hd => Or.inr hd
    · rintro (hA | hd)
      · have hcontra := (agentStage_error_iff inp).mpr hA
        rw [hcontra] at hag
        exact Except.noConfusion hag
      · exact hd

/-- C5 witness: the error characterization holds at `c5Inp`, whose
decision call rejects. -/
theorem post_error_characterization_witness :
    POST c5Inp = .error () ↔
      ((usesAgents c5Inp.detectionMethod = true ∧
        (c5Inp.agentOutcome .content = .error () ∨ c5Inp.agentOutcome .link = .error () ∨
         c5Inp.agentOutcome .sender = .error () ∨ c5Inp.agentOutcome .context = .error ())) ∨
       c5Inp.decisionOutcome = .error ()) :=
  post_error_characterization_amended c5Inp "hello" rfl (by decide) (by decide)

/-- C6 counterexample: the decision `risk` string is not validated — a
parsed decision with risk "critical" reaches the returned verdict
unchanged, outside the documented three-value set. -/
theorem risk_unvalidated_cex :
    POST c6Inp = .ok (.ok c6Res) ∧
    c6Res.overall.risk = some "critical" ∧
    c6Res.overall.risk ≠ some "low" ∧
    c6Res.overall.risk ≠ some "medium" ∧
    c6Res.overall.risk ≠ some "high" := by
  exact ⟨by with_unfolding_all rfl, rfl, by decide, by decide, by decide⟩

/-- C6 amended: every successful analyze response echoes the parsed
decision's `risk` field unvalidated (falling back to "medium" only when
the decision response fails to parse), while the overall confidence, when
present, does lie in the unit interval. -/
theorem overall_risk_passthrough_amended (inp : PostInputs) (r : AnalysisResult)
    (pd : Option DecisionJSON) (c : ℚ)
    (h : POST inp = .ok (.ok r)) (hd : inp.decisionOutcome = .ok pd)
    (hc : r.overall.confidence = some c) :
    r.overall.risk = (pd.getD fallbackDecision).risk ∧ 0 ≤ c ∧ c ≤ 1 := by
  obtain ⟨⟨pd', hdec, hrisk, hconf, _⟩, _, _⟩ := post_ok_shape inp r h
  rw [hd] at hdec
  have hpd := Except.ok.inj hdec
  subst hpd
  have hb : 0 ≤ c ∧ c ≤ 1 := by
    rw [hconf] at hc
    rcases hcc : (pd.getD fallbackDecision).confidence with _ | c0
    · rw [hcc] at hc
      exact absurd hc (by simp)
    · rw [hcc] at hc
      have hc2 := Option.some.inj hc
      rw [← hc2]
      exact clamp01_mem _
  exact ⟨hrisk, hb.1, hb.2⟩

/-- C6 witness: the passthrough holds at `c6Inp`, whose parsed decision
carries risk "critical". -/
theorem overall_risk_passthrough_witness :
    c6Res.overall.risk = ((some c6Dec).getD fallbackDecision).risk ∧
    0 ≤ (9 : ℚ) / 10 ∧ (9 : ℚ) / 10 ≤ 1 :=
  overall_risk_passthrough_amended c6Inp c6Res (some c6Dec) (9 / 10)
    (by with_unfolding_all rfl) rfl rfl

/-- C9: the feedback endpoint's guard returns 400 exactly when `correct`
is not a boolean or `analysis` is absent, and succeeds on an analysis
whose `agents` field is present — but on a classifier-only analysis
(`agents` = `null`) the handler throws a `TypeError` from
`Object.entries(null)` instead of returning a success response. -/
theorem feedback_agents_null_throws :
    feedbackPOST (.boolVal true) (some agentsNullAnalysis) = .error () ∧
    feedbackPOST (.boolVal true) (some agentsPresentAnalysis) = .ok .ok ∧
    feedbackPOST .absent (some agentsNullAnalysis) = .ok (.badRequest "Invalid payload") ∧
    feedbackPOST .other (some agentsNullAnalysis) = .ok (.badRequest "Invalid payload") ∧
    feedbackPOST (.boolVal true) none = .ok (.badRequest "Invalid payload") :=
  ⟨rfl, rfl, rfl, rfl, rfl⟩

end SMSFraud
